import Mathlib

/-!
Verification of the frame-resource / fence synchronization, camera control and
descriptor-index invariants of the d3d12book demo applications
(BoxApp, CrateApp, BlendApp), shallowly embedded from the C++ sources.
-/

namespace D3DBook

/-- Number of in-flight frame resources; from the source line
`const int gNumFrameResources = 3;` shared by CrateApp and BlendApp. -/
def gNumFrameResources : Nat := 3

/-- Number of swap-chain back buffers. Modelled from the spec: the constant
`SwapChainBufferCount` lives in the framework class D3DApp (Common/d3dApp.h,
not part of the provided sources); the demos only use it as the modulus in
`mCurrBackBuffer = (mCurrBackBuffer + 1) % SwapChainBufferCount`. -/
def SwapChainBufferCount : Nat := 2

/-- CPU/GPU synchronization state shared by CrateApp and BlendApp: the
circular frame-resource index, the per-frame-resource recorded fence values
(`FrameResource::Fence`), the CPU-side fence counter `mCurrentFence`, the
fence object's completed value (`mFence->GetCompletedValue()`), the current
back-buffer index, and the log of values signaled on the command queue. -/
structure AppState where
  currFrameResourceIndex : Nat
  fences : Nat → Nat
  currentFence : Nat
  completedFence : Nat
  currBackBuffer : Nat
  signalLog : List Nat

/-- Initial state. The index starts at 0 (`int mCurrFrameResourceIndex = 0;`),
and every `FrameResource::Fence`, `mCurrentFence` and the fence object start
at 0 (FrameResource.h / d3dApp.h in Common, mirrored by the wait condition
treating fence value 0 as never-submitted). -/
def initState : AppState :=
  { currFrameResourceIndex := 0
    fences := fun _ => 0
    currentFence := 0
    completedFence := 0
    currBackBuffer := 0
    signalLog := [] }

/-- Frame-resource index selected at the start of Update:
`(mCurrFrameResourceIndex + 1) % gNumFrameResources`. -/
def nextIndex (s : AppState) : Nat :=
  (s.currFrameResourceIndex + 1) % gNumFrameResources

/-- Condition of the blocking wait in CrateApp::Update / BlendApp::Update:
`mCurrFrameResource->Fence != 0 && mFence->GetCompletedValue() < mCurrFrameResource->Fence`. -/
def updateBlocks (s : AppState) : Bool :=
  s.fences (nextIndex s) ≠ 0 && s.completedFence < s.fences (nextIndex s)

/-- Effect of CrateApp::Update / BlendApp::Update on the synchronization
state: advance the circular index, then, when the wait condition holds,
block until the fence's completed value has reached the recorded fence of
the newly current frame resource (the wait leaves the completed value at
least at that fence). After this point Update overwrites the current frame
resource's constant buffers. -/
def updateSync (s : AppState) : AppState :=
  let idx := nextIndex s
  let completed :=
    if s.fences idx ≠ 0 ∧ s.completedFence < s.fences idx then s.fences idx
    else s.completedFence
  { s with currFrameResourceIndex := idx, completedFence := completed }

/-- Effect of the tail of CrateApp::Draw / BlendApp::Draw on the
synchronization state: advance the back buffer modulo SwapChainBufferCount,
record `++mCurrentFence` as the current frame resource's Fence, and signal
that value on the command queue. -/
def drawSync (s : AppState) : AppState :=
  { s with
    currBackBuffer := (s.currBackBuffer + 1) % SwapChainBufferCount
    currentFence := s.currentFence + 1
    fences := Function.update s.fences s.currFrameResourceIndex (s.currentFence + 1)
    signalLog := s.signalLog ++ [s.currentFence + 1] }

/-- Effect of one whole frame of the message loop: Update then Draw. -/
def frameStep (s : AppState) : AppState := drawSync (updateSync s)

/-- GPU progress: the fence's completed value can advance at any time to any
value not exceeding the last signaled value. -/
def gpuAdvance (s : AppState) (c : Nat) : AppState :=
  { s with completedFence := c }

/-- States reachable from the initial state by whole frames interleaved with
GPU progress. -/
inductive Reachable : AppState → Prop
  | init : Reachable initState
  | frame {s : AppState} : Reachable s → Reachable (frameStep s)
  | gpu {s : AppState} {c : Nat} : Reachable s → s.completedFence ≤ c →
      c ≤ s.currentFence → Reachable (gpuAdvance s c)

/-- The GPU may still be consuming frame resource `i`: commands using it were
submitted (its recorded fence is nonzero) and the fence's completed value has
not yet reached that recorded fence. -/
def gpuMayConsume (s : AppState) (i : Nat) : Prop :=
  s.fences i ≠ 0 ∧ s.completedFence < s.fences i

/-- Combined invariant of the synchronization state machine. -/
def SyncInv (s : AppState) : Prop :=
  s.currFrameResourceIndex < gNumFrameResources ∧
  (∀ i, s.fences i ≤ s.currentFence) ∧
  s.completedFence ≤ s.currentFence ∧
  (∀ v ∈ s.signalLog, v ≤ s.currentFence) ∧
  s.signalLog.Chain' (· < ·)

theorem syncInv_init : SyncInv initState := by
  refine ⟨by decide, fun i => Nat.le_refl 0, Nat.le_refl 0, ?_, ?_⟩
  · intro v hv; simp [initState] at hv
  · simp [initState]

theorem syncInv_updateSync {s : AppState} (h : SyncInv s) : SyncInv (updateSync s) := by
  obtain ⟨h1, h2, h3, h4, h5⟩ := h
  refine ⟨Nat.mod_lt _ (by decide), h2, ?_, h4, h5⟩
  simp only [updateSync]
  split
  · exact h2 _
  · exact h3

theorem syncInv_drawSync {s : AppState} (h : SyncInv s) : SyncInv (drawSync s) := by
  obtain ⟨h1, h2, h3, h4, h5⟩ := h
  refine ⟨h1, ?_, Nat.le_succ_of_le h3, ?_, ?_⟩
  · intro i
    by_cases hi : i = s.currFrameResourceIndex
    · subst hi; simp [drawSync, Function.update]
    · simp only [drawSync, Function.update, hi, if_false]
      exact Nat.le_succ_of_le (h2 i)
  · intro v hv
    simp only [drawSync, List.mem_append, List.mem_singleton] at hv
    simp only [drawSync]
    rcases hv with hv | hv
    · exact Nat.le_succ_of_le (h4 v hv)
    · omega
  · simp only [drawSync]
    apply List.Chain'.append h5 (List.chain'_singleton _)
    intro x hx y hy
    simp only [List.head?_cons, Option.mem_def, Option.some.injEq] at hy
    subst hy
    exact Nat.lt_succ_of_le (h4 x (List.mem_of_mem_getLast? hx))

theorem syncInv_frameStep {s : AppState} (h : SyncInv s) : SyncInv (frameStep s) :=
  syncInv_drawSync (syncInv_updateSync h)

theorem syncInv_gpuAdvance {s : AppState} {c : Nat} (h : SyncInv s)
    (hc : c ≤ s.currentFence) : SyncInv (gpuAdvance s c) := by
  obtain ⟨h1, h2, h3, h4, h5⟩ := h
  exact ⟨h1, h2, hc, h4, h5⟩

theorem syncInv_of_reachable {s : AppState} (h : Reachable s) : SyncInv s := by
  induction h with
  | init => exact syncInv_init
  | frame _ ih => exact syncInv_frameStep ih
  | gpu _ _ hc ih => exact syncInv_gpuAdvance ih hc

theorem frameStep_index (s : AppState) :
    (frameStep s).currFrameResourceIndex = (s.currFrameResourceIndex + 1) % 3 := rfl

theorem iterate_frameStep_index (n : Nat) :
    (frameStep^[n] initState).currFrameResourceIndex = n % 3 := by
  induction n with
  | zero => rfl
  | succ n ih =>
      rw [Function.iterate_succ_apply', frameStep_index, ih]
      omega

/-- C1: at the start of every frame, Update blocks the CPU on the fence if and
only if the current frame resource's recorded Fence value is nonzero and the
fence's completed value is still below it; consequently, at the point where
Update begins overwriting the current frame resource's constant buffers, the
GPU can no longer be consuming that frame resource — for every reachable
state of the update/draw step relation. -/
theorem update_fence_wait_safety (s : AppState) (h : Reachable s) :
    (updateBlocks s = true ↔ gpuMayConsume s (nextIndex s)) ∧
    ¬ gpuMayConsume (updateSync s) ((updateSync s).currFrameResourceIndex) := by
  constructor
  · simp [updateBlocks, gpuMayConsume]
  · simp only [updateSync, gpuMayConsume, nextIndex]
    rw [not_and]
    intro hne
    split
    next => exact Nat.lt_irrefl _
    next hcond => exact fun hlt => hcond ⟨hne, hlt⟩

/-- Closed instance of the C1 theorem at the initial state. -/
theorem update_fence_wait_safety_witness :
    (updateBlocks initState = true ↔ gpuMayConsume initState (nextIndex initState)) ∧
    ¬ gpuMayConsume (updateSync initState) ((updateSync initState).currFrameResourceIndex) :=
  update_fence_wait_safety initState Reachable.init

/-- C2: the per-frame loop cycles through a ring of exactly
gNumFrameResources = 3 frame resources: every Update advances the index to
(index + 1) mod 3, the index always stays below 3, and each frame resource is
current again exactly every third frame (same index after three frames, a
different index after one and after two frames). -/
theorem frame_resource_ring_cycle :
    gNumFrameResources = 3 ∧
    (∀ s : AppState, (updateSync s).currFrameResourceIndex =
      (s.currFrameResourceIndex + 1) % gNumFrameResources) ∧
    (∀ n : Nat, (frameStep^[n] initState).currFrameResourceIndex = n % 3) ∧
    (∀ n : Nat, (frameStep^[n] initState).currFrameResourceIndex < 3) ∧
    (∀ n : Nat,
      (frameStep^[n + 3] initState).currFrameResourceIndex =
        (frameStep^[n] initState).currFrameResourceIndex ∧
      (frameStep^[n + 1] initState).currFrameResourceIndex ≠
        (frameStep^[n] initState).currFrameResourceIndex ∧
      (frameStep^[n + 2] initState).currFrameResourceIndex ≠
        (frameStep^[n] initState).currFrameResourceIndex) := by
  refine ⟨rfl, fun s => rfl, iterate_frameStep_index, ?_, ?_⟩
  · intro n
    rw [iterate_frameStep_index]
    omega
  · intro n
    rw [iterate_frameStep_index, iterate_frameStep_index, iterate_frameStep_index,
      iterate_frameStep_index]
    omega

/-- C3: the fence counter is monotonically increasing: every Draw increments
mCurrentFence by exactly one, records the new value as the current frame
resource's Fence, signals exactly that value on the command queue, the
signaled values of any reachable run form a strictly increasing sequence, and
a frame step never decreases any frame resource's stored Fence. -/
theorem fence_counter_monotone (s : AppState) (h : Reachable s) :
    (drawSync s).currentFence = s.currentFence + 1 ∧
    (drawSync s).fences s.currFrameResourceIndex = s.currentFence + 1 ∧
    (drawSync s).signalLog = s.signalLog ++ [s.currentFence + 1] ∧
    s.signalLog.Chain' (· < ·) ∧
    (∀ i, s.fences i ≤ (frameStep s).fences i) := by
  obtain ⟨h1, h2, h3, h4, h5⟩ := syncInv_of_reachable h
  refine ⟨rfl, by simp [drawSync], rfl, h5, ?_⟩
  intro i
  show s.fences i ≤ Function.update s.fences _ _ i
  by_cases hi : i = (updateSync s).currFrameResourceIndex
  · subst hi
    simp only [Function.update_same]
    exact Nat.le_succ_of_le (h2 _)
  · simp only [Function.update, hi, if_false]
    exact Nat.le_refl _

/-- Closed instance of the C3 theorem at the initial state. -/
theorem fence_counter_monotone_witness :
    (drawSync initState).currentFence = initState.currentFence + 1 ∧
    (drawSync initState).fences initState.currFrameResourceIndex =
      initState.currentFence + 1 ∧
    (drawSync initState).signalLog = initState.signalLog ++ [initState.currentFence + 1] ∧
    initState.signalLog.Chain' (· < ·) ∧
    (∀ i, initState.fences i ≤ (frameStep initState).fences i) :=
  fence_counter_monotone initState Reachable.init

/-! BlendApp render-mode loop state: lazy creation of the pixel-overdraw
resources inside Draw (BlendApp::Draw and
BlendApp::CreateResourcesForPixelOverdrawMode). -/

/-- Render mode of BlendApp (`enum class RenderMode { Normal, PixelOverdraw }`). -/
inductive RenderMode
  | normal
  | pixelOverdraw
deriving DecidableEq

/-- Loop-relevant BlendApp state: the current render mode (`mRenderMode`),
whether `mPixelOverdrawResources` has been allocated (`!= nullptr`), and how
many entity-creation events (the pixel-overdraw bundle: quad MeshGeometry,
quad texture, overdraw PSOs) happened after the per-frame loop started. -/
structure BlendLoopState where
  renderMode : RenderMode
  overdrawResourcesCreated : Bool
  entityCreationsDuringLoop : Nat

/-- BlendApp state when the per-frame loop starts: render mode Normal
(`RenderMode mRenderMode = RenderMode::Normal;`), no pixel-overdraw
resources, nothing created during the loop yet. -/
def blendLoopInit : BlendLoopState :=
  { renderMode := RenderMode.normal
    overdrawResourcesCreated := false
    entityCreationsDuringLoop := 0 }

/-- BlendApp::ChangeRenderMode: `if (newMode == mRenderMode) return;
mRenderMode = newMode;` (reached from OnKeyDown on F1/F2). -/
def changeRenderMode (newMode : RenderMode) (s : BlendLoopState) : BlendLoopState :=
  if newMode = s.renderMode then s else { s with renderMode := newMode }

/-- Draw creates entities this frame: BlendApp::Draw calls
CreateResourcesForPixelOverdrawMode when `mRenderMode == RenderMode::PixelOverdraw`,
and that function returns immediately when `mPixelOverdrawResources.get() != nullptr`. -/
def drawCreatesEntities (s : BlendLoopState) : Bool :=
  s.renderMode = RenderMode.pixelOverdraw && !s.overdrawResourcesCreated

/-- Effect of one BlendApp::Draw call on the loop state: lazily create the
pixel-overdraw bundle (quad geometry, quad texture, PSOs) exactly when the
render mode is PixelOverdraw and the bundle does not exist yet. -/
def blendDrawStep (s : BlendLoopState) : BlendLoopState :=
  if drawCreatesEntities s then
    { s with
      overdrawResourcesCreated := true
      entityCreationsDuringLoop := s.entityCreationsDuringLoop + 1 }
  else s

/-- One step of the BlendApp per-frame loop with user input: an F1/F2 key
(ChangeRenderMode) or one Draw call. -/
inductive BlendStep : BlendLoopState → BlendLoopState → Prop
  | keyF1 {s : BlendLoopState} : BlendStep s (changeRenderMode RenderMode.normal s)
  | keyF2 {s : BlendLoopState} : BlendStep s (changeRenderMode RenderMode.pixelOverdraw s)
  | draw {s : BlendLoopState} : BlendStep s (blendDrawStep s)

/-- BlendApp loop states reachable after the per-frame loop has started. -/
inductive BlendReachable : BlendLoopState → Prop
  | init : BlendReachable blendLoopInit
  | step {s t : BlendLoopState} : BlendReachable s → BlendStep s t → BlendReachable t

theorem blendLoopInv_change {s : BlendLoopState} (m : RenderMode)
    (ih : s.entityCreationsDuringLoop = (if s.overdrawResourcesCreated then 1 else 0)) :
    (changeRenderMode m s).entityCreationsDuringLoop =
      (if (changeRenderMode m s).overdrawResourcesCreated then 1 else 0) := by
  simp only [changeRenderMode]
  split <;> exact ih

theorem blendLoopInv_draw {s : BlendLoopState}
    (ih : s.entityCreationsDuringLoop = (if s.overdrawResourcesCreated then 1 else 0)) :
    (blendDrawStep s).entityCreationsDuringLoop =
      (if (blendDrawStep s).overdrawResourcesCreated then 1 else 0) := by
  simp only [blendDrawStep]
  by_cases hc : drawCreatesEntities s = true
  · have hnc : s.overdrawResourcesCreated = false := by
      simp only [drawCreatesEntities, Bool.and_eq_true, Bool.not_eq_true',
        decide_eq_true_eq] at hc
      exact hc.2
    rw [hnc] at ih
    simp [hc, ih]
  · simp only [hc, if_false, Bool.false_eq_true]
    exact ih

theorem blendLoopInv {s : BlendLoopState} (h : BlendReachable s) :
    s.entityCreationsDuringLoop = (if s.overdrawResourcesCreated then 1 else 0) := by
  induction h with
  | init => rfl
  | step _ hstep ih =>
      cases hstep with
      | keyF1 => exact blendLoopInv_change _ ih
      | keyF2 => exact blendLoopInv_change _ ih
      | draw => exact blendLoopInv_draw ih

/-- Counterexample to C4 as stated: after the per-frame loop starts, pressing
F2 (RenderMode::PixelOverdraw) and drawing one frame is a reachable run in
which BlendApp::Draw creates entities (quad MeshGeometry, quad texture,
PSOs via CreateResourcesForPixelOverdrawMode), so it is false that no entity
is created after the per-frame loop has started. -/
theorem entity_creation_counterexample :
    ¬ (∀ s : BlendLoopState, BlendReachable s → s.entityCreationsDuringLoop = 0) := by
  intro hclaim
  have h1 : BlendReachable (blendDrawStep (changeRenderMode RenderMode.pixelOverdraw blendLoopInit)) :=
    BlendReachable.step (BlendReachable.step BlendReachable.init BlendStep.keyF2) BlendStep.draw
  have h2 := hclaim _ h1
  revert h2
  decide

/-- C4 (amended): no data entity is created after the per-frame loop has
started, except BlendApp's lazily created pixel-overdraw bundle: in every
reachable loop state, Draw creates entities exactly when the render mode is
PixelOverdraw and the bundle does not exist yet, the bundle is created at
most once per run, and as long as it has not been created nothing at all has
been created during the loop. -/
theorem entity_creation_only_overdraw_bundle (s : BlendLoopState) (h : BlendReachable s) :
    (drawCreatesEntities s = true ↔
      s.renderMode = RenderMode.pixelOverdraw ∧ s.overdrawResourcesCreated = false) ∧
    s.entityCreationsDuringLoop ≤ 1 ∧
    (s.overdrawResourcesCreated = false → s.entityCreationsDuringLoop = 0) := by
  have hinv := blendLoopInv h
  refine ⟨?_, ?_, ?_⟩
  · simp [drawCreatesEntities]
  · rw [hinv]; split <;> omega
  · intro hnc; rw [hinv, hnc]; rfl

/-- Closed instance of the amended C4 theorem at the loop-start state. -/
theorem entity_creation_only_overdraw_bundle_witness :
    (drawCreatesEntities blendLoopInit = true ↔
      blendLoopInit.renderMode = RenderMode.pixelOverdraw ∧
      blendLoopInit.overdrawResourcesCreated = false) ∧
    blendLoopInit.entityCreationsDuringLoop ≤ 1 ∧
    (blendLoopInit.overdrawResourcesCreated = false →
      blendLoopInit.entityCreationsDuringLoop = 0) :=
  entity_creation_only_overdraw_bundle blendLoopInit BlendReachable.init

/-! Per-frame event traces of the three demos, transliterated from the
statement order of Update and Draw in BoxApp.cpp, CrateApp.cpp and
BlendApp.cpp. -/

/-- Observable per-frame events. `record` stands for the whole command-list
recording block (allocator/list reset, barriers, clears, draw calls),
`flush` for D3DApp::FlushCommandQueue (a fence signal followed by a blocking
wait on that fence). -/
inductive Ev
  | updateCamera
  | fenceWait
  | updateCBs
  | record
  | closeList
  | execute
  | present
  | advanceBackBuffer
  | signal
  | flush
deriving DecidableEq

/-- Event trace of CrateApp::Update: keyboard/camera first, then the
conditional blocking fence wait, then the constant-buffer updates
(AnimateMaterials, UpdateObjectCBs, UpdateMaterialCBs, UpdateMainPassCB,
UpdateSampler). `blocks` is the value of the wait condition. -/
def crateUpdateTrace (blocks : Bool) : List Ev :=
  [Ev.updateCamera] ++ (if blocks then [Ev.fenceWait] else []) ++ [Ev.updateCBs]

/-- Event trace of CrateApp::Draw: recording, Close, ExecuteCommandLists,
Present, back-buffer advance, fence signal — in source order. -/
def crateDrawTrace : List Ev :=
  [Ev.record, Ev.closeList, Ev.execute, Ev.present, Ev.advanceBackBuffer, Ev.signal]

/-- Event trace of BlendApp::Update (same structure as CrateApp::Update,
with UpdateWaves as the last constant-buffer update). -/
def blendUpdateTrace (blocks : Bool) : List Ev :=
  [Ev.updateCamera] ++ (if blocks then [Ev.fenceWait] else []) ++ [Ev.updateCBs]

/-- Event trace of BlendApp::Draw, in source order. -/
def blendDrawTrace : List Ev :=
  [Ev.record, Ev.closeList, Ev.execute, Ev.present, Ev.advanceBackBuffer, Ev.signal]

/-- Event trace of BoxApp::Update: camera and direct constant-buffer writes,
no wait. -/
def boxUpdateTrace : List Ev := [Ev.updateCamera, Ev.updateCBs]

/-- Event trace of BoxApp::Draw: recording, Close, ExecuteCommandLists,
Present, back-buffer advance, then FlushCommandQueue — in source order. -/
def boxDrawTrace : List Ev :=
  [Ev.record, Ev.closeList, Ev.execute, Ev.present, Ev.advanceBackBuffer, Ev.flush]

/-- Trace of one whole frame of each demo. Modelled from the spec: the
message loop calling Update and then Draw once per frame lives in
D3DApp::Run (Common/d3dApp.cpp, not among the provided sources); the spec
describes it as "per-frame Update (camera, constant buffers, simple
animation) → per-frame Draw (command list recording, fixed draw calls) →
present/fence-signal". -/
def crateFrameTrace (blocks : Bool) : List Ev := crateUpdateTrace blocks ++ crateDrawTrace

/-- Whole-frame trace of BlendApp (see crateFrameTrace). -/
def blendFrameTrace (blocks : Bool) : List Ev := blendUpdateTrace blocks ++ blendDrawTrace

/-- Whole-frame trace of BoxApp (see crateFrameTrace). -/
def boxFrameTrace : List Ev := boxUpdateTrace ++ boxDrawTrace

/-- Events at which the CPU blocks on the GPU fence: the conditional wait in
Update, and FlushCommandQueue, whose body performs
`mFence->SetEventOnCompletion` / `WaitForSingleObject`. Modelled from the
spec for the flush: FlushCommandQueue is in Common/d3dApp.cpp, described by
the spec as the single fence wait per frame for the simple demos. -/
def isBlockingWait : Ev → Bool
  | Ev.fenceWait => true
  | Ev.flush => true
  | _ => false

/-- Ordering of the per-frame phases in a trace: Update phases strictly
before recording, then Close, ExecuteCommandLists, Present, the back-buffer
advance and the given final fence event, each strictly after the previous. -/
def FrameOrdered (t : List Ev) (fenceEv : Ev) : Prop :=
  Ev.updateCamera ∈ t ∧ Ev.updateCBs ∈ t ∧ Ev.record ∈ t ∧ Ev.closeList ∈ t ∧
  Ev.execute ∈ t ∧ Ev.present ∈ t ∧ Ev.advanceBackBuffer ∈ t ∧ fenceEv ∈ t ∧
  t.indexOf Ev.updateCamera < t.indexOf Ev.record ∧
  t.indexOf Ev.updateCBs < t.indexOf Ev.record ∧
  t.indexOf Ev.record < t.indexOf Ev.closeList ∧
  t.indexOf Ev.closeList < t.indexOf Ev.execute ∧
  t.indexOf Ev.execute < t.indexOf Ev.present ∧
  t.indexOf Ev.present < t.indexOf Ev.advanceBackBuffer ∧
  t.indexOf Ev.advanceBackBuffer < t.indexOf fenceEv

/-- C5: every frame of every demo runs Update before Draw, and within Draw:
command-list recording, Close, ExecuteCommandLists, Present, the back-buffer
advance modulo SwapChainBufferCount, and the fence signal (CrateApp,
BlendApp) or flush (BoxApp) strictly after Present. -/
theorem frame_phase_order (blocks : Bool) :
    FrameOrdered (crateFrameTrace blocks) Ev.signal ∧
    FrameOrdered (blendFrameTrace blocks) Ev.signal ∧
    FrameOrdered boxFrameTrace Ev.flush ∧
    (∀ s : AppState,
      (drawSync s).currBackBuffer = (s.currBackBuffer + 1) % SwapChainBufferCount) := by
  cases blocks <;>
    exact ⟨by unfold FrameOrdered; decide, by unfold FrameOrdered; decide,
      by unfold FrameOrdered; decide, fun s => rfl⟩

/-- C6: in every per-frame Update/Draw cycle of every demo the CPU performs
at most one blocking fence wait: the conditional wait in CrateApp/BlendApp
Update (present exactly when the wait condition holds), or the flush at the
end of BoxApp::Draw; no other event of the frame blocks on the fence. -/
theorem one_blocking_wait_per_frame (blocks : Bool) :
    ((crateFrameTrace blocks).filter isBlockingWait =
      if blocks then [Ev.fenceWait] else []) ∧
    ((blendFrameTrace blocks).filter isBlockingWait =
      if blocks then [Ev.fenceWait] else []) ∧
    boxFrameTrace.filter isBlockingWait = [Ev.flush] ∧
    ((crateFrameTrace blocks).countP (fun e => isBlockingWait e) ≤ 1 ∧
      (blendFrameTrace blocks).countP (fun e => isBlockingWait e) ≤ 1 ∧
      boxFrameTrace.countP (fun e => isBlockingWait e) = 1) := by
  cases blocks <;> decide

/-! BlendApp scene data (BuildMaterials, BuildRenderItems,
BuildFrameResources, BuildDescriptorHeaps, LoadTextures) and the bolt
animation (AnimateMaterials). -/

/-- Index data of a Material: `MatCBIndex` and `DiffuseSrvHeapIndex`
(d3dUtil.h Material, as initialized in BlendApp::BuildMaterials). -/
structure MaterialData where
  name : String
  matCBIndex : Nat
  diffuseSrvHeapIndex : Nat
deriving DecidableEq

/-- Index data of a RenderItem: `ObjCBIndex` and its material pointer
(as initialized in BlendApp::BuildRenderItems). -/
structure RenderItemData where
  objCBIndex : Nat
  mat : MaterialData
deriving DecidableEq

/-- Number of bolt animation textures: BlendApp::LoadTextures pushes
`AnimTexturesCount = 60` textures into mBoltAnimTextures. -/
def boltAnimTexturesCount : Nat := 60

/-- Starting heap offset of the bolt animation descriptors:
BlendApp::BuildDescriptorHeaps sets `mBoltAnimSrvOffsetInHeap = 3` after the
grass, water and fence descriptors. -/
def boltAnimStartOffset : Nat := 3

/-- Size of BlendApp's SRV descriptor heap: `3 + mBoltAnimTextures.size() + 1`
(grass+water+fence, the bolt animation sequence, the pixel-overdraw texture). -/
def srvHeapNumDescriptors : Nat := 3 + boltAnimTexturesCount + 1

/-- BlendApp::AnimateMaterials bolt tick:
`mBoltAnimSrvOffsetInHeap = (currentOffset - 3 + 1) % mBoltAnimTextures.size() + 3`
with `currentOffset` a UINT, so the subtraction is arithmetic modulo 2^32. -/
def animTick (o : Nat) : Nat :=
  ((o + 2 ^ 32 - 3 + 1) % 2 ^ 32) % boltAnimTexturesCount + 3

/-- Bolt-animation SRV heap offset after `n` animation ticks, starting from
the value set in BuildDescriptorHeaps. -/
def boltOffsetAfter (n : Nat) : Nat := animTick^[n] boltAnimStartOffset

theorem boltOffsetAfter_eq (n : Nat) : boltOffsetAfter n = n % 60 + 3 := by
  induction n with
  | zero => rfl
  | succ n ih =>
      rw [boltOffsetAfter, Function.iterate_succ_apply', ← boltOffsetAfter, ih]
      show (n % 60 + 3 + 2 ^ 32 - 3 + 1) % 2 ^ 32 % boltAnimTexturesCount + 3 =
        (n + 1) % 60 + 3
      unfold boltAnimTexturesCount
      omega

/-- Materials built in BlendApp::BuildMaterials; the boltAnim material's
DiffuseSrvHeapIndex equals the current bolt heap offset (initialized from
mBoltAnimSrvOffsetInHeap and rewritten by every AnimateMaterials tick). -/
def grassMat : MaterialData := ⟨"grass", 0, 0⟩

/-- Water material: MatCBIndex 1, DiffuseSrvHeapIndex 1. -/
def waterMat : MaterialData := ⟨"water", 1, 1⟩

/-- Wirefence material: MatCBIndex 2, DiffuseSrvHeapIndex 2. -/
def wirefenceMat : MaterialData := ⟨"wirefence", 2, 2⟩

/-- BoltAnim material at the current bolt heap offset: MatCBIndex 3. -/
def boltAnimMat (offset : Nat) : MaterialData := ⟨"boltAnim", 3, offset⟩

/-- The mMaterials map of BlendApp (four materials). -/
def blendMaterials (boltOffset : Nat) : List MaterialData :=
  [grassMat, waterMat, wirefenceMat, boltAnimMat boltOffset]

/-- mAllRitems of BlendApp::BuildRenderItems: waves (water), grid (grass),
box (wirefence), animated bolt (boltAnim), with ObjCBIndex 0..3. -/
def blendAllRitems (boltOffset : Nat) : List RenderItemData :=
  [⟨0, waterMat⟩, ⟨1, grassMat⟩, ⟨2, wirefenceMat⟩, ⟨3, boltAnimMat boltOffset⟩]

/-- Render items passed to DrawRenderItems during one BlendApp::Draw, in the
order determined by mDrawTransparentFirst: the Transparent and AnimatedBolt
layers either before or after the Opaque and AlphaTested layers. -/
def blendDrawnRitems (transparentFirst : Bool) (boltOffset : Nat) : List RenderItemData :=
  if transparentFirst then
    [⟨0, waterMat⟩, ⟨3, boltAnimMat boltOffset⟩, ⟨1, grassMat⟩, ⟨2, wirefenceMat⟩]
  else
    [⟨1, grassMat⟩, ⟨2, wirefenceMat⟩, ⟨0, waterMat⟩, ⟨3, boltAnimMat boltOffset⟩]

/-- Per-FrameResource ObjectCB element count: BlendApp::BuildFrameResources
allocates each FrameResource with `(UINT)mAllRitems.size()` object constants. -/
def blendObjectCBCount (boltOffset : Nat) : Nat := (blendAllRitems boltOffset).length

/-- C7: for every render item passed to DrawRenderItems, in every reachable
bolt-animation state and either draw order, ObjCBIndex is below the number
of ObjectCB elements allocated per FrameResource (mAllRitems.size()), the
material's MatCBIndex is below mMaterials.size(), and the material's
DiffuseSrvHeapIndex is below the SRV heap's NumDescriptors. -/
theorem draw_indices_valid (n : Nat) (transparentFirst : Bool) (ri : RenderItemData)
    (hmem : ri ∈ blendDrawnRitems transparentFirst (boltOffsetAfter n)) :
    ri.objCBIndex < blendObjectCBCount (boltOffsetAfter n) ∧
    ri.mat.matCBIndex < (blendMaterials (boltOffsetAfter n)).length ∧
    ri.mat.diffuseSrvHeapIndex < srvHeapNumDescriptors := by
  have hoff : boltOffsetAfter n = n % 60 + 3 := boltOffsetAfter_eq n
  have hbound : boltOffsetAfter n < 63 := by omega
  simp only [blendDrawnRitems] at hmem
  have hcases : ri = ⟨0, waterMat⟩ ∨ ri = ⟨1, grassMat⟩ ∨ ri = ⟨2, wirefenceMat⟩ ∨
      ri = ⟨3, boltAnimMat (boltOffsetAfter n)⟩ := by
    cases transparentFirst <;> (simp_all; tauto)
  rcases hcases with h | h | h | h <;> subst h <;>
    simp [blendObjectCBCount, blendAllRitems, blendMaterials, srvHeapNumDescriptors,
      boltAnimTexturesCount, waterMat, grassMat, wirefenceMat, boltAnimMat] <;>
    omega

/-- Closed instance of the C7 theorem: the waves item in the first frame. -/
theorem draw_indices_valid_witness :
    (⟨0, waterMat⟩ : RenderItemData) ∈ blendDrawnRitems true (boltOffsetAfter 0) ∧
    ((⟨0, waterMat⟩ : RenderItemData).objCBIndex < blendObjectCBCount (boltOffsetAfter 0) ∧
      (⟨0, waterMat⟩ : RenderItemData).mat.matCBIndex <
        (blendMaterials (boltOffsetAfter 0)).length ∧
      (⟨0, waterMat⟩ : RenderItemData).mat.diffuseSrvHeapIndex < srvHeapNumDescriptors) :=
  ⟨by decide, draw_indices_valid 0 true ⟨0, waterMat⟩ (by decide)⟩

/-- C10: the bolt-animation heap offset starts at 3; on each tick with the
offset in the bolt slot range the update acts as
((offset - 3 + 1) mod 60) + 3; after n ticks the offset is n mod 60 + 3, so
it always stays in [3, 3 + 60), cycles through the bolt slots in order, and
the boltAnim material's DiffuseSrvHeapIndex is always a valid descriptor
index of the heap. -/
theorem bolt_anim_offset_cycle (n o : Nat) (ho1 : 3 ≤ o)
    (ho2 : o < 3 + boltAnimTexturesCount) :
    boltAnimStartOffset = 3 ∧
    animTick o = (o - 3 + 1) % boltAnimTexturesCount + 3 ∧
    boltOffsetAfter n = n % boltAnimTexturesCount + 3 ∧
    3 ≤ boltOffsetAfter n ∧
    boltOffsetAfter n < 3 + boltAnimTexturesCount ∧
    (boltAnimMat (boltOffsetAfter n)).diffuseSrvHeapIndex < srvHeapNumDescriptors := by
  have hoff : boltOffsetAfter n = n % 60 + 3 := boltOffsetAfter_eq n
  unfold boltAnimTexturesCount at ho2 ⊢
  refine ⟨rfl, ?_, hoff, by omega, by omega, ?_⟩
  · show (o + 2 ^ 32 - 3 + 1) % 2 ^ 32 % 60 + 3 = (o - 3 + 1) % 60 + 3
    omega
  · show (boltAnimMat (boltOffsetAfter n)).diffuseSrvHeapIndex < srvHeapNumDescriptors
    simp only [boltAnimMat, srvHeapNumDescriptors, boltAnimTexturesCount]
    omega

/-- Closed instance of the C10 theorem at tick 61 and offset 62. -/
theorem bolt_anim_offset_cycle_witness :
    3 ≤ 62 ∧ 62 < 3 + boltAnimTexturesCount ∧
    (boltAnimStartOffset = 3 ∧
      animTick 62 = (62 - 3 + 1) % boltAnimTexturesCount + 3 ∧
      boltOffsetAfter 61 = 61 % boltAnimTexturesCount + 3 ∧
      3 ≤ boltOffsetAfter 61 ∧
      boltOffsetAfter 61 < 3 + boltAnimTexturesCount ∧
      (boltAnimMat (boltOffsetAfter 61)).diffuseSrvHeapIndex < srvHeapNumDescriptors) :=
  ⟨by decide, by decide, bolt_anim_offset_cycle 61 62 (by decide) (by decide)⟩

/-! Dirty-counter propagation of render items and materials
(CrateApp/BlendApp UpdateObjectCBs and UpdateMaterialCBs, the re-dirtying
sites such as CrateApp::ScaleTexTransform and BlendApp::AnimateMaterials). -/

/-- Observable dirty-tracking state of one entity (a RenderItem or a
Material): its `int NumFramesDirty` counter and, per frame-resource index,
how many times its data has been copied into that frame resource's constant
buffer (`CopyData` calls). -/
structure EntityCB where
  numFramesDirty : Int
  copies : Nat → Nat

/-- Re-dirtying an entity sets `NumFramesDirty = gNumFrameResources`
(RenderItem construction, ScaleTexTransform, AnimateMaterials, etc.). -/
def markEntityDirty (e : EntityCB) : EntityCB :=
  { e with numFramesDirty := (gNumFrameResources : Int) }

/-- Per-Update treatment of one entity by UpdateObjectCBs / UpdateMaterialCBs
with current frame-resource index `frIdx`: when `NumFramesDirty > 0`, copy
the entity's data into that frame resource's constant buffer and decrement
the counter; otherwise do nothing. -/
def updateEntityCB (frIdx : Nat) (e : EntityCB) : EntityCB :=
  if 0 < e.numFramesDirty then
    { numFramesDirty := e.numFramesDirty - 1
      copies := Function.update e.copies frIdx (e.copies frIdx + 1) }
  else e

/-- Entity dirty states reachable from construction (counter starts at
gNumFrameResources) by per-frame updates and re-dirtying. -/
inductive EntityReachable : EntityCB → Prop
  | init (c : Nat → Nat) : EntityReachable ⟨(gNumFrameResources : Int), c⟩
  | update {e : EntityCB} (i : Nat) : EntityReachable e → EntityReachable (updateEntityCB i e)
  | dirty {e : EntityCB} : EntityReachable e → EntityReachable (markEntityDirty e)

theorem entity_dirty_bounds {e : EntityCB} (h : EntityReachable e) :
    0 ≤ e.numFramesDirty ∧ e.numFramesDirty ≤ (gNumFrameResources : Int) := by
  induction h with
  | init c => exact ⟨by norm_num [gNumFrameResources], Int.le_refl _⟩
  | update i _ ih =>
      simp only [updateEntityCB]
      split
      next hpos =>
        dsimp only
        obtain ⟨ih1, ih2⟩ := ih
        constructor <;> omega
      next => exact ih
  | dirty _ ih =>
      simp only [markEntityDirty]
      exact ⟨by norm_num [gNumFrameResources], Int.le_refl _⟩

/-- The three frame-resource indices visited by the three Updates following
the frame whose index was `i`. -/
def threeUpdates (i : Nat) (e : EntityCB) : EntityCB :=
  updateEntityCB ((i + 3) % 3) (updateEntityCB ((i + 2) % 3) (updateEntityCB ((i + 1) % 3) e))

theorem updateEntityCB_pos {e : EntityCB} (i : Nat) (h : 0 < e.numFramesDirty) :
    updateEntityCB i e =
      ⟨e.numFramesDirty - 1, Function.update e.copies i (e.copies i + 1)⟩ := by
  simp [updateEntityCB, h]

theorem updateEntityCB_nonpos {e : EntityCB} (i : Nat) (h : ¬ 0 < e.numFramesDirty) :
    updateEntityCB i e = e := by
  simp [updateEntityCB, h]

/-- C8: in every reachable dirty state the counter satisfies
0 ≤ NumFramesDirty ≤ gNumFrameResources; each per-frame update copies into
the current frame resource's constant buffer if and only if
NumFramesDirty > 0 and then decrements it; and whenever a modification has
just set NumFramesDirty = gNumFrameResources with current frame index `i`,
the next three Updates propagate it exactly once into each of the three
frame resources, after which the counter is 0 and further Updates copy
nothing. -/
theorem dirty_counter_propagation (e : EntityCB) (i : Nat) (h : EntityReachable e)
    (hi : i < 3) :
    (0 ≤ e.numFramesDirty ∧ e.numFramesDirty ≤ (gNumFrameResources : Int)) ∧
    (∀ (e₁ : EntityCB) (k : Nat),
      (updateEntityCB k e₁).copies k = e₁.copies k + (if 0 < e₁.numFramesDirty then 1 else 0) ∧
      (∀ j, j ≠ k → (updateEntityCB k e₁).copies j = e₁.copies j) ∧
      (updateEntityCB k e₁).numFramesDirty =
        e₁.numFramesDirty - (if 0 < e₁.numFramesDirty then 1 else 0)) ∧
    (e.numFramesDirty = (gNumFrameResources : Int) →
      (threeUpdates i e).numFramesDirty = 0 ∧
      (∀ j, j < 3 → (threeUpdates i e).copies j = e.copies j + 1) ∧
      (∀ k, updateEntityCB k (threeUpdates i e) = threeUpdates i e)) := by
  have hbounds := entity_dirty_bounds h
  have hcopy : ∀ (e₁ : EntityCB) (k : Nat),
      (updateEntityCB k e₁).copies k =
        e₁.copies k + (if 0 < e₁.numFramesDirty then 1 else 0) ∧
      (∀ j, j ≠ k → (updateEntityCB k e₁).copies j = e₁.copies j) ∧
      (updateEntityCB k e₁).numFramesDirty =
        e₁.numFramesDirty - (if 0 < e₁.numFramesDirty then 1 else 0) := by
    intro e₁ k
    by_cases hpos : 0 < e₁.numFramesDirty
    · rw [updateEntityCB_pos k hpos]
      refine ⟨by simp [hpos, Function.update], ?_, by simp [hpos]⟩
      intro j hj
      simp [Function.update, hj]
    · rw [updateEntityCB_nonpos k hpos]
      simp [hpos]
  refine ⟨hbounds, hcopy, ?_⟩
  intro hd
  have hdirty3 : (threeUpdates i e).numFramesDirty = 0 := by
    have h1 := (hcopy e ((i + 1) % 3)).2.2
    have h2 := (hcopy (updateEntityCB ((i + 1) % 3) e) ((i + 2) % 3)).2.2
    have h3 := (hcopy (updateEntityCB ((i + 2) % 3) (updateEntityCB ((i + 1) % 3) e))
      ((i + 3) % 3)).2.2
    unfold threeUpdates
    norm_num [gNumFrameResources] at hd
    rw [h3, h2, h1, hd]
    norm_num
  refine ⟨hdirty3, ?_, ?_⟩
  · intro j hj
    have hrep : (i + 1) % 3 = j ∨ (i + 2) % 3 = j ∨ (i + 3) % 3 = j := by omega
    have hne : ((i + 1) % 3 ≠ (i + 2) % 3) ∧ ((i + 2) % 3 ≠ (i + 3) % 3) ∧
        ((i + 1) % 3 ≠ (i + 3) % 3) := by omega
    have hpos1 : 0 < e.numFramesDirty := by
      rw [hd]; norm_num [gNumFrameResources]
    have hpos2 : 0 < (updateEntityCB ((i + 1) % 3) e).numFramesDirty := by
      rw [(hcopy e _).2.2, hd]
      norm_num [gNumFrameResources, hpos1]
    have hpos3 : 0 <
        (updateEntityCB ((i + 2) % 3) (updateEntityCB ((i + 1) % 3) e)).numFramesDirty := by
      rw [(hcopy _ _).2.2, (hcopy e _).2.2, hd]
      norm_num [gNumFrameResources, hpos1, hpos2]
    unfold threeUpdates
    rcases hrep with hj3 | hj3 | hj3
    · rw [← hj3]
      rw [(hcopy _ ((i + 3) % 3)).2.1 _ hne.2.2]
      rw [(hcopy _ ((i + 2) % 3)).2.1 _ hne.1]
      rw [(hcopy e ((i + 1) % 3)).1]
      simp [hpos1]
    · rw [← hj3]
      rw [(hcopy _ ((i + 3) % 3)).2.1 _ hne.2.1]
      rw [(hcopy _ ((i + 2) % 3)).1]
      rw [(hcopy e ((i + 1) % 3)).2.1 _ (Ne.symm hne.1)]
      simp [hpos2]
    · rw [← hj3]
      rw [(hcopy _ ((i + 3) % 3)).1]
      rw [(hcopy _ ((i + 2) % 3)).2.1 _ (Ne.symm hne.2.1)]
      rw [(hcopy e ((i + 1) % 3)).2.1 _ (Ne.symm hne.2.2)]
      simp [hpos3]
  · intro k
    apply updateEntityCB_nonpos
    rw [hdirty3]
    omega

/-- Closed instance of the C8 theorem: a freshly constructed entity with no
copies yet, at current frame index 0. -/
theorem dirty_counter_propagation_witness :
    0 < 3 ∧
    ((0 ≤ (⟨(gNumFrameResources : Int), fun _ => 0⟩ : EntityCB).numFramesDirty ∧
        (⟨(gNumFrameResources : Int), fun _ => 0⟩ : EntityCB).numFramesDirty ≤
          (gNumFrameResources : Int)) ∧
      (∀ (e₁ : EntityCB) (k : Nat),
        (updateEntityCB k e₁).copies k =
          e₁.copies k + (if 0 < e₁.numFramesDirty then 1 else 0) ∧
        (∀ j, j ≠ k → (updateEntityCB k e₁).copies j = e₁.copies j) ∧
        (updateEntityCB k e₁).numFramesDirty =
          e₁.numFramesDirty - (if 0 < e₁.numFramesDirty then 1 else 0)) ∧
      ((⟨(gNumFrameResources : Int), fun _ => 0⟩ : EntityCB).numFramesDirty =
          (gNumFrameResources : Int) →
        (threeUpdates 0 ⟨(gNumFrameResources : Int), fun _ => 0⟩).numFramesDirty = 0 ∧
        (∀ j, j < 3 →
          (threeUpdates 0 ⟨(gNumFrameResources : Int), fun _ => 0⟩).copies j =
            (⟨(gNumFrameResources : Int), fun _ => 0⟩ : EntityCB).copies j + 1) ∧
        (∀ k, updateEntityCB k (threeUpdates 0 ⟨(gNumFrameResources : Int), fun _ => 0⟩) =
          threeUpdates 0 ⟨(gNumFrameResources : Int), fun _ => 0⟩))) :=
  ⟨by decide,
    dirty_counter_propagation ⟨(gNumFrameResources : Int), fun _ => 0⟩ 0
      (EntityReachable.init _) (by decide)⟩

/-! Orbit-camera mouse handling (BoxApp::OnMouseMove, CrateApp::OnMouseMove,
BlendApp::OnMouseMove). Float values are modelled by rationals. -/

/-- Value of the 32-bit float constant MathHelper::Pi = 3.1415926535f,
exactly 13176795 * 2^-22. Modelled from the spec: MathHelper lives in
Common/MathHelper.h, outside the provided sources. -/
def piFloat : ℚ := 13176795 / 4194304

/-- MathHelper::Clamp. Modelled from the spec: Common/MathHelper.h defines
it as `x < low ? low : (x > high ? high : x)`. -/
def clampQ (x low high : ℚ) : ℚ :=
  if x < low then low else if high < x then high else x

/-- XMConvertToRadians: degrees times pi / 180 (DirectXMath). -/
def xmConvertToRadians (deg : ℚ) : ℚ := deg * (piFloat / 180)

/-- Orbit-camera state common to the three demos: spherical angles and
radius of the eye position. -/
structure Camera where
  theta : ℚ
  phi : ℚ
  radius : ℚ

/-- Shared shape of OnMouseMove in the three demos, with the per-demo radius
sensitivity and clamp bounds as parameters: with the left button held the
angles move by a quarter degree per pixel and phi is clamped to
[0.1, Pi - 0.1]; otherwise with the right button held the radius moves by
radiusScale per pixel and is clamped to [radiusLo, radiusHi]; otherwise the
camera is unchanged. `dx`/`dy` are the pixel deltas x - mLastMousePos.x and
y - mLastMousePos.y. -/
def onMouseMoveCam (radiusScale radiusLo radiusHi : ℚ) (lbutton rbutton : Bool)
    (dx dy : ℤ) (c : Camera) : Camera :=
  if lbutton then
    { c with
      theta := c.theta + xmConvertToRadians ((1 / 4) * dx)
      phi := clampQ (c.phi + xmConvertToRadians ((1 / 4) * dy)) (1 / 10) (piFloat - 1 / 10) }
  else if rbutton then
    { c with
      radius := clampQ (c.radius + (radiusScale * dx - radiusScale * dy)) radiusLo radiusHi }
  else c

/-- BoxApp::OnMouseMove: 0.005 units per pixel, radius clamped to [3, 15]. -/
def boxOnMouseMove : Bool → Bool → ℤ → ℤ → Camera → Camera :=
  onMouseMoveCam (5 / 1000) 3 15

/-- CrateApp::OnMouseMove: 0.05 units per pixel, radius clamped to [5, 150]. -/
def crateOnMouseMove : Bool → Bool → ℤ → ℤ → Camera → Camera :=
  onMouseMoveCam (5 / 100) 5 150

/-- BlendApp::OnMouseMove: 0.2 units per pixel, radius clamped to [5, 150]. -/
def blendOnMouseMove : Bool → Bool → ℤ → ℤ → Camera → Camera :=
  onMouseMoveCam (2 / 10) 5 150

theorem clampQ_mem {x low high : ℚ} (h : low ≤ high) :
    low ≤ clampQ x low high ∧ clampQ x low high ≤ high := by
  unfold clampQ
  split
  · exact ⟨le_refl _, h⟩
  next h1 =>
    split
    · exact ⟨h, le_refl _⟩
    next h2 => exact ⟨le_of_not_lt h1, le_of_not_lt h2⟩

theorem phi_interval_sin_pos {q : ℚ} (h1 : 1 / 10 ≤ q) (h2 : q ≤ piFloat - 1 / 10) :
    0 < Real.sin (q : ℝ) := by
  apply Real.sin_pos_of_pos_of_lt_pi
  · have : (0 : ℚ) < q := lt_of_lt_of_le (by norm_num) h1
    exact_mod_cast this
  · have hq : (q : ℝ) ≤ ((piFloat - 1 / 10 : ℚ) : ℝ) := by exact_mod_cast h2
    have hlt : ((piFloat - 1 / 10 : ℚ) : ℝ) < 3.141592 := by
      rw [show ((piFloat - 1 / 10 : ℚ) : ℝ) = ((13176795 / 4194304 - 1 / 10 : ℚ) : ℝ) from by
        norm_num [piFloat]]
      push_cast
      norm_num
    calc (q : ℝ) < 3.141592 := lt_of_le_of_lt hq hlt
      _ < Real.pi := Real.pi_gt_d6

/-- Shared per-demo camera bound for one mouse-move event. -/
def CamBounds (radiusLo radiusHi : ℚ) (c : Camera) : Prop :=
  (1 / 10 ≤ c.phi ∧ c.phi ≤ piFloat - 1 / 10) ∧
  (radiusLo ≤ c.radius ∧ c.radius ≤ radiusHi)

theorem onMouseMoveCam_bounds {radiusScale radiusLo radiusHi : ℚ}
    (hr : radiusLo ≤ radiusHi) (lb rb : Bool) (dx dy : ℤ) (c : Camera)
    (hc : CamBounds radiusLo radiusHi c) :
    CamBounds radiusLo radiusHi (onMouseMoveCam radiusScale radiusLo radiusHi lb rb dx dy c) := by
  have hphi : (1 : ℚ) / 10 ≤ piFloat - 1 / 10 := by norm_num [piFloat]
  obtain ⟨hc1, hc2⟩ := hc
  unfold onMouseMoveCam
  split
  · exact ⟨clampQ_mem hphi, hc2⟩
  · split
    · exact ⟨hc1, clampQ_mem hr⟩
    · exact ⟨hc1, hc2⟩

/-- C9: after any OnMouseMove in any demo whose camera started within
bounds, mPhi stays in [0.1, Pi - 0.1] and mRadius stays in the per-demo
clamp range ([3, 15] for BoxApp, [5, 150] for CrateApp and BlendApp); hence
the spherical-to-Cartesian eye position is computed from a bounded domain,
and in particular sin(mPhi) is strictly positive. -/
theorem mouse_move_camera_bounds (lb rb : Bool) (dx dy : ℤ)
    (cBox cCrate cBlend : Camera)
    (hBox : CamBounds 3 15 cBox)
    (hCrate : CamBounds 5 150 cCrate)
    (hBlend : CamBounds 5 150 cBlend) :
    CamBounds 3 15 (boxOnMouseMove lb rb dx dy cBox) ∧
    CamBounds 5 150 (crateOnMouseMove lb rb dx dy cCrate) ∧
    CamBounds 5 150 (blendOnMouseMove lb rb dx dy cBlend) ∧
    0 < Real.sin (((boxOnMouseMove lb rb dx dy cBox).phi : ℝ)) ∧
    0 < Real.sin (((crateOnMouseMove lb rb dx dy cCrate).phi : ℝ)) ∧
    0 < Real.sin (((blendOnMouseMove lb rb dx dy cBlend).phi : ℝ)) := by
  have h1 : CamBounds 3 15 (boxOnMouseMove lb rb dx dy cBox) :=
    onMouseMoveCam_bounds (by norm_num) lb rb dx dy cBox hBox
  have h2 : CamBounds 5 150 (crateOnMouseMove lb rb dx dy cCrate) :=
    onMouseMoveCam_bounds (by norm_num) lb rb dx dy cCrate hCrate
  have h3 : CamBounds 5 150 (blendOnMouseMove lb rb dx dy cBlend) :=
    onMouseMoveCam_bounds (by norm_num) lb rb dx dy cBlend hBlend
  exact ⟨h1, h2, h3,
    phi_interval_sin_pos h1.1.1 h1.1.2,
    phi_interval_sin_pos h2.1.1 h2.1.2,
    phi_interval_sin_pos h3.1.1 h3.1.2⟩

/-- Closed instance of the C9 theorem: a left-drag on cameras that start in
bounds. -/
theorem mouse_move_camera_bounds_witness :
    CamBounds 3 15 ⟨0, 1 / 2, 6⟩ ∧
    CamBounds 5 150 ⟨0, 1 / 2, 6⟩ ∧
    (CamBounds 3 15 (boxOnMouseMove true false 100 200 ⟨0, 1 / 2, 6⟩) ∧
      CamBounds 5 150 (crateOnMouseMove true false 100 200 ⟨0, 1 / 2, 6⟩) ∧
      CamBounds 5 150 (blendOnMouseMove true false 100 200 ⟨0, 1 / 2, 6⟩) ∧
      0 < Real.sin (((boxOnMouseMove true false 100 200 ⟨0, 1 / 2, 6⟩).phi : ℝ)) ∧
      0 < Real.sin (((crateOnMouseMove true false 100 200 ⟨0, 1 / 2, 6⟩).phi : ℝ)) ∧
      0 < Real.sin (((blendOnMouseMove true false 100 200 ⟨0, 1 / 2, 6⟩).phi : ℝ))) := by
  have hb : CamBounds 3 15 ⟨0, 1 / 2, 6⟩ := by
    unfold CamBounds piFloat
    norm_num
  have hc : CamBounds 5 150 ⟨0, 1 / 2, 6⟩ := by
    unfold CamBounds piFloat
    norm_num
  exact ⟨hb, hc, mouse_move_camera_bounds true false 100 200 _ _ _ hb hc hc⟩

end D3DBook
